import Mathlib

/-!
Shallow embedding of the filter-and-derive pipeline of `kde_heatmap_2025.py`.

The script loads a roster, resolves a pitcher name to an id, fetches pitch
records, filters them by pitcher name, pitch type, inclusive date interval and
optionally batter handedness, stops on an empty result, derives the vertical
approach angle columns with polars expressions, aggregates five rounded means,
and selects the (px, pz) columns with nulls dropped for plotting.

Floating-point columns are modelled by `RFloat`: either a finite real value or
`nan`, the single marker for an undefined IEEE result.  The polars operations
used by the script propagate `nan` through arithmetic, produce `nan` for the
square root of a negative number, and `mean` ignores nulls but does NOT skip
`nan` (in polars, `NaN` is a valid float value, distinct from `null`), so a
`nan` entry makes the column mean `nan`.  Division is modelled as yielding
`nan` on a zero divisor; this collapses the IEEE infinities and `NaN` into the
one undefined marker, which is faithful everywhere the script divides by a
nonzero quantity (the claims under study only concern such rows).
Dates are ISO `YYYY-MM-DD` strings compared lexicographically, exactly as the
polars string comparison in the script does.
-/

/-- Model of a polars float cell: a finite real or the undefined marker. -/
inductive RFloat where
  | nan : RFloat
  | val : ℝ → RFloat

namespace RFloat

/-- Addition, propagating `nan`. -/
def add : RFloat → RFloat → RFloat
  | val a, val b => val (a + b)
  | _, _ => nan

/-- Subtraction, propagating `nan`. -/
def sub : RFloat → RFloat → RFloat
  | val a, val b => val (a - b)
  | _, _ => nan

/-- Multiplication, propagating `nan`. -/
def mul : RFloat → RFloat → RFloat
  | val a, val b => val (a * b)
  | _, _ => nan

/-- Negation, propagating `nan`. -/
def neg : RFloat → RFloat
  | val a => val (-a)
  | nan => nan

/-- Squaring, the model of the polars `** 2` expression. -/
def pow2 : RFloat → RFloat
  | val a => val (a ^ 2)
  | nan => nan

/-- Division: `nan` propagates and a zero divisor is undefined. -/
noncomputable def div : RFloat → RFloat → RFloat
  | val a, val b => if b = 0 then nan else val (a / b)
  | _, _ => nan

/-- Square root: negative arguments are undefined, as for IEEE floats. -/
noncomputable def fsqrt : RFloat → RFloat
  | val a => if a < 0 then nan else val (Real.sqrt a)
  | nan => nan

/-- Arctangent, propagating `nan`. -/
noncomputable def arctanF : RFloat → RFloat
  | val a => val (Real.arctan a)
  | nan => nan

/-- Whether the cell holds a finite value. -/
def isVal : RFloat → Prop
  | val _ => True
  | nan => False

/-- Boolean test for the undefined marker. -/
def isNaNB : RFloat → Bool
  | val _ => false
  | nan => true

/-- The underlying real of a defined cell (0 for `nan`). -/
def toReal : RFloat → ℝ
  | val a => a
  | nan => 0

end RFloat

/-- Rounding a real to one decimal, half away from zero, the mode of the
polars `round(1)` used for the summary scalars. -/
noncomputable def round1 (x : ℝ) : ℝ :=
  if x < 0 then -(((⌊(-x) * 10 + 1 / 2⌋ : ℤ) : ℝ) / 10)
  else ((⌊x * 10 + 1 / 2⌋ : ℤ) : ℝ) / 10

/-- Rounding of a float cell; `nan` stays `nan`. -/
noncomputable def RFloat.round1F : RFloat → RFloat
  | val a => val (round1 a)
  | nan => nan

/-- Sum of a float column, folding `add` (so any `nan` entry poisons it). -/
def fsum (l : List RFloat) : RFloat :=
  l.foldr RFloat.add (RFloat.val 0)

/-- Column mean as polars computes it: `null` (here `none`) on an empty
column, otherwise sum over count; a `nan` entry yields `nan`, it is not
skipped. -/
noncomputable def fmean (l : List RFloat) : Option RFloat :=
  match l with
  | [] => none
  | _ => some (RFloat.div (fsum l) (RFloat.val (l.length : ℝ)))

/-- One pitch-tracking record, with the fields the script actually uses.
Location columns `px`, `pz` are nullable floats (`none` models a null). -/
structure PitchRecord where
  pitcher_name : String
  pitcher_id : Nat
  pitch_type : String
  game_date : String
  batter_hand : String
  px : Option RFloat
  pz : Option RFloat
  start_speed : RFloat
  ivb : RFloat
  hb : RFloat
  extension : RFloat
  vy0 : RFloat
  ay : RFloat
  vz0 : RFloat
  az : RFloat

/-- The user-selected criteria: pitcher name, pitch type code, inclusive date
interval (ISO strings) and the tri-state batter handedness selector. -/
structure SelectionCriteria where
  pitcher : String
  ptype : String
  start_date : String
  end_date : String
  hand : String

/-- Filter on pitcher name, `df.filter(pl.col("pitcher_name") == input)`. -/
def filterPitcher (c : SelectionCriteria) (rs : List PitchRecord) : List PitchRecord :=
  rs.filter (fun r => r.pitcher_name == c.pitcher)

/-- Filter on pitch type, `df.filter(pl.col("pitch_type") == input)`. -/
def filterType (c : SelectionCriteria) (rs : List PitchRecord) : List PitchRecord :=
  rs.filter (fun r => r.pitch_type == c.ptype)

/-- Filter on the date interval,
`df.filter((col("game_date") >= str(start)) & (col("game_date") <= str(end)))`. -/
def filterDate (c : SelectionCriteria) (rs : List PitchRecord) : List PitchRecord :=
  rs.filter (fun r => decide (c.start_date ≤ r.game_date) && decide (r.game_date ≤ c.end_date))

/-- The batter-handedness stage: an equality filter when the selector is
"Left" or "Right", and no filtering otherwise. -/
def filterHand (c : SelectionCriteria) (rs : List PitchRecord) : List PitchRecord :=
  if c.hand = "Left" then rs.filter (fun r => r.batter_hand == "L")
  else if c.hand = "Right" then rs.filter (fun r => r.batter_hand == "R")
  else rs

/-- The full filter chain of the script, in source order. -/
def filterPipeline (c : SelectionCriteria) (rs : List PitchRecord) : List PitchRecord :=
  filterHand c (filterDate c (filterType c (filterPitcher c rs)))

/-- Release-plane distance constant, `y0 = 50` in the script. -/
noncomputable def y0 : ℝ := 50

/-- Plate-crossing plane constant, `yf = 17 / 12` in the script. -/
noncomputable def yf : ℝ := 17 / 12

/-- The `vy_f` column: `-(vy0 ** 2 - 2 * ay * (y0 - yf)).sqrt()`. -/
noncomputable def vyfCol (r : PitchRecord) : RFloat :=
  RFloat.neg (RFloat.fsqrt (RFloat.sub (RFloat.pow2 r.vy0)
    (RFloat.mul (RFloat.mul (RFloat.val 2) r.ay) (RFloat.val (y0 - yf)))))

/-- The `t` column: `(vy_f - vy0) / ay`. -/
noncomputable def tCol (r : PitchRecord) : RFloat :=
  RFloat.div (RFloat.sub (vyfCol r) r.vy0) r.ay

/-- The `vz_f` column: `vz0 + az * t`. -/
noncomputable def vzfCol (r : PitchRecord) : RFloat :=
  RFloat.add r.vz0 (RFloat.mul r.az (tCol r))

/-- The `vaa_rad` column: `(-vz_f / vy_f).arctan()`. -/
noncomputable def vaaRadCol (r : PitchRecord) : RFloat :=
  RFloat.arctanF (RFloat.div (RFloat.neg (vzfCol r)) (vyfCol r))

/-- The `vaa_deg` column: `vaa_rad * (180 / pi)`. -/
noncomputable def vaaDegCol (r : PitchRecord) : RFloat :=
  RFloat.mul (vaaRadCol r) (RFloat.val (180 / Real.pi))

/-- A record together with the five derived columns. -/
structure DerivedRow extends PitchRecord where
  vy_f : RFloat
  t : RFloat
  vz_f : RFloat
  vaa_rad : RFloat
  vaa_deg : RFloat

/-- Derivation of the VAA columns for one row. -/
noncomputable def deriveRow (r : PitchRecord) : DerivedRow :=
  { toPitchRecord := r, vy_f := vyfCol r, t := tCol r, vz_f := vzfCol r,
    vaa_rad := vaaRadCol r, vaa_deg := vaaDegCol r }

/-- Derivation over the whole filtered row-set. -/
noncomputable def derive (rs : List PitchRecord) : List DerivedRow :=
  rs.map deriveRow

/-- The five summary scalars (each possibly null, as a polars mean can be). -/
structure SummaryStats where
  velo : Option RFloat
  ivbM : Option RFloat
  hbM : Option RFloat
  ext : Option RFloat
  vaa : Option RFloat

/-- The summary aggregation: the mean of each column, rounded to one
decimal, exactly the `select` in the script. -/
noncomputable def summarize (d : List DerivedRow) : SummaryStats :=
  { velo := (fmean (d.map (fun r => r.start_speed))).map RFloat.round1F,
    ivbM := (fmean (d.map (fun r => r.ivb))).map RFloat.round1F,
    hbM := (fmean (d.map (fun r => r.hb))).map RFloat.round1F,
    ext := (fmean (d.map (fun r => r.extension))).map RFloat.round1F,
    vaa := (fmean (d.map (fun r => r.vaa_deg))).map RFloat.round1F }

/-- Outcome of the pipeline after filtering: either the terminal "no matching
data" stop, or the derived rows with their summary. -/
inductive ComputeResult where
  | emptyResult : ComputeResult
  | ok : List DerivedRow → SummaryStats → ComputeResult

/-- The pipeline from filtered rows onward: stop on an empty filter result,
otherwise derive and aggregate. -/
noncomputable def compute (c : SelectionCriteria) (rs : List PitchRecord) : ComputeResult :=
  if (filterPipeline c rs).isEmpty then ComputeResult.emptyResult
  else ComputeResult.ok (derive (filterPipeline c rs)) (summarize (derive (filterPipeline c rs)))

/-- Name resolution over the roster: the `player_id` of the first row whose
name equals the input, as `players_df.filter(name == input)` followed by the
head of the `player_id` column. -/
def resolveId (players : List (String × Nat)) (name : String) : Option Nat :=
  ((players.filter (fun p => p.1 == name)).map (fun p => p.2)).head?

/-- Outcome of the identity-resolution-and-fetch prologue of the script. -/
inductive FetchOutcome (α : Type) where
  | userInputError : FetchOutcome α
  | fetched : α → FetchOutcome α

/-- The prologue: resolve the name; on failure stop with the user-input
error, otherwise look up the game ids and fetch their data.  The two fetch
operations are passed as parameters (they are external collaborators). -/
def fetchStage {α : Type} (players : List (String × Nat)) (name : String)
    (getGames : Nat → List Nat) (getData : List Nat → α) : FetchOutcome α :=
  match resolveId players name with
  | none => FetchOutcome.userInputError
  | some pid => FetchOutcome.fetched (getData (getGames pid))

/-- The row-set handed to plotting: `df.select(["px", "pz"]).drop_nulls()`,
the two location columns with the rows having a null in either dropped. -/
def pdfRows (d : List DerivedRow) : List (Option RFloat × Option RFloat) :=
  (d.map (fun r => (r.px, r.pz))).filter (fun q => q.1.isSome && q.2.isSome)

/-- A record with the given kinematic fields and inert remaining fields,
used to state per-row facts about the derived columns. -/
def mkRow (a b c d : ℝ) : PitchRecord :=
  { pitcher_name := "", pitcher_id := 0, pitch_type := "", game_date := "",
    batter_hand := "", px := none, pz := none,
    start_speed := RFloat.val 0, ivb := RFloat.val 0, hb := RFloat.val 0,
    extension := RFloat.val 0, vy0 := RFloat.val a, ay := RFloat.val b,
    vz0 := RFloat.val c, az := RFloat.val d }

/-- The exact-arithmetic `vy_f` of the spec formula. -/
noncomputable def vyF (vy0v ayv : ℝ) : ℝ :=
  -Real.sqrt (vy0v ^ 2 - 2 * ayv * (y0 - yf))

/-- The exact-arithmetic `t` of the spec formula. -/
noncomputable def tF (vy0v ayv : ℝ) : ℝ :=
  (vyF vy0v ayv - vy0v) / ayv

/-- The exact-arithmetic `vz_f` of the spec formula. -/
noncomputable def vzF (vy0v ayv vz0v azv : ℝ) : ℝ :=
  vz0v + azv * tF vy0v ayv

/-- The exact-arithmetic `vaa_deg` of the spec formula. -/
noncomputable def vaaDegF (vy0v ayv vz0v azv : ℝ) : ℝ :=
  Real.arctan (-vzF vy0v ayv vz0v azv / vyF vy0v ayv) * (180 / Real.pi)

/-- Arithmetic mean of a list of reals. -/
noncomputable def amean (l : List ℝ) : ℝ :=
  l.sum / l.length

/-- Agreement of two records on every field except batter handedness. -/
def SameExceptHand (a b : PitchRecord) : Prop :=
  a.pitcher_name = b.pitcher_name ∧ a.pitcher_id = b.pitcher_id ∧
  a.pitch_type = b.pitch_type ∧ a.game_date = b.game_date ∧
  a.px = b.px ∧ a.pz = b.pz ∧ a.start_speed = b.start_speed ∧
  a.ivb = b.ivb ∧ a.hb = b.hb ∧ a.extension = b.extension ∧
  a.vy0 = b.vy0 ∧ a.ay = b.ay ∧ a.vz0 = b.vz0 ∧ a.az = b.az

/-- Sample criteria used in witnesses. -/
def sampleCrit : SelectionCriteria :=
  { pitcher := "A", ptype := "FF", start_date := "2025-04-01",
    end_date := "2025-05-01", hand := "Both" }

/-- Sample record matching `sampleCrit` on its boundary date. -/
def sampleRow : PitchRecord :=
  { mkRow 0 1 0 0 with
      pitcher_name := "A", pitch_type := "FF",
      game_date := "2025-04-01", batter_hand := "L" }

/-- The sample record with the opposite batter handedness. -/
def sampleRowR : PitchRecord :=
  { sampleRow with batter_hand := "R" }

/-- Sample roster used in witnesses. -/
def samplePlayers : List (String × Nat) :=
  [("A", 100), ("B", 200)]

/-- A name absent from `samplePlayers`, used in witnesses. -/
def unknownName : String := "Nobody"

/-- A fully defined derived row used in witnesses. -/
def sampleDerived : DerivedRow :=
  { toPitchRecord := mkRow 0 1 0 0, vy_f := RFloat.val 0, t := RFloat.val 0,
    vz_f := RFloat.val 0, vaa_rad := RFloat.val 0, vaa_deg := RFloat.val 3 }

/-! Helper lemmas about the filter stages. -/

lemma mem_of_mem_filterHand {c : SelectionCriteria} {r : PitchRecord}
    {l : List PitchRecord} (h : r ∈ filterHand c l) : r ∈ l := by
  unfold filterHand at h
  split at h
  · exact List.mem_of_mem_filter h
  · split at h
    · exact List.mem_of_mem_filter h
    · exact h

lemma filter_filter_self {α : Type} (p : α → Bool) (l : List α) :
    (l.filter p).filter p = l.filter p :=
  List.filter_eq_self.mpr (fun _ ha => (List.mem_filter.mp ha).2)

lemma filterHand_idem (c : SelectionCriteria) (l : List PitchRecord) :
    filterHand c (filterHand c l) = filterHand c l := by
  unfold filterHand
  split
  · exact filter_filter_self _ _
  · split
    · exact filter_filter_self _ _
    · rfl

lemma filterHand_sublist (c : SelectionCriteria) (l : List PitchRecord) :
    (filterHand c l).Sublist l := by
  unfold filterHand
  split
  · exact List.filter_sublist _
  · split
    · exact List.filter_sublist _
    · exact List.Sublist.refl _

/-- The claim C10 statement: the filtered row-set is a sublist of the input,
so every output row is an unmodified input row, none is duplicated, and the
input order is preserved. -/
theorem C10_filter_sublist (c : SelectionCriteria) (rs : List PitchRecord) :
    (filterPipeline c rs).Sublist rs := by
  unfold filterPipeline
  refine ((filterHand_sublist c _).trans ?_)
  refine ((List.filter_sublist _).trans ?_)
  refine ((List.filter_sublist _).trans ?_)
  exact List.filter_sublist _

/-- The claim C8 statement: filtering is idempotent, applying the full filter
chain to its own output returns that output unchanged. -/
theorem C8_filter_idempotent (c : SelectionCriteria) (rs : List PitchRecord) :
    filterPipeline c (filterPipeline c rs) = filterPipeline c rs := by
  have hm3 : filterPipeline c rs =
      filterHand c (filterDate c (filterType c (filterPitcher c rs))) := rfl
  have hmem : ∀ r ∈ filterPipeline c rs,
      r ∈ filterDate c (filterType c (filterPitcher c rs)) := by
    intro r hr
    rw [hm3] at hr
    exact mem_of_mem_filterHand hr
  have hdate : ∀ r ∈ filterPipeline c rs,
      (decide (c.start_date ≤ r.game_date) && decide (r.game_date ≤ c.end_date)) = true :=
    fun r hr => (List.mem_filter.mp (hmem r hr)).2
  have hmem2 : ∀ r ∈ filterPipeline c rs, r ∈ filterType c (filterPitcher c rs) :=
    fun r hr => List.mem_of_mem_filter (hmem r hr)
  have htype : ∀ r ∈ filterPipeline c rs, (r.pitch_type == c.ptype) = true :=
    fun r hr => (List.mem_filter.mp (hmem2 r hr)).2
  have hpitch : ∀ r ∈ filterPipeline c rs, (r.pitcher_name == c.pitcher) = true :=
    fun r hr => (List.mem_filter.mp (List.mem_of_mem_filter (hmem2 r hr))).2
  have e1 : filterPitcher c (filterPipeline c rs) = filterPipeline c rs :=
    List.filter_eq_self.mpr hpitch
  have e2 : filterType c (filterPipeline c rs) = filterPipeline c rs :=
    List.filter_eq_self.mpr htype
  have e3 : filterDate c (filterPipeline c rs) = filterPipeline c rs :=
    List.filter_eq_self.mpr hdate
  show filterHand c (filterDate c (filterType c (filterPitcher c (filterPipeline c rs)))) =
      filterPipeline c rs
  rw [e1, e2, e3, hm3, filterHand_idem]

/-- The claim C9 statement: the row-set handed to plotting is exactly the
(px, pz) pair of every row in which both locations are defined, in order,
with the rows having a missing location dropped. -/
theorem C9_plot_rows (d : List DerivedRow) :
    pdfRows d =
      (d.filter (fun r => r.px.isSome && r.pz.isSome)).map (fun r => (r.px, r.pz)) := by
  unfold pdfRows
  induction d with
  | nil => rfl
  | cons a l ih =>
    simp only [List.map_cons, List.filter_cons]
    cases h : (a.px.isSome && a.pz.isSome) with
    | true => simp [h, ih]
    | false => simp [h, ih]

/-- The claim C3 statement: when filtering leaves no rows, the pipeline
returns the terminal empty result, which carries no derived rows and no
summary, so derivation and aggregation are not performed. -/
theorem C3_empty_result (c : SelectionCriteria) (rs : List PitchRecord)
    (h : filterPipeline c rs = []) : compute c rs = ComputeResult.emptyResult := by
  unfold compute
  rw [h]
  rfl

/-- Witness for C3 at a concrete empty input. -/
theorem C3_empty_result_witness : compute sampleCrit [] = ComputeResult.emptyResult :=
  C3_empty_result sampleCrit [] rfl

/-- The claim C4 statement: a pitcher name with no exact match in the roster
produces the user-input error, whatever the game-id lookup and raw-data fetch
functions would return, so neither fetch influences the outcome. -/
theorem C4_unknown_pitcher (players : List (String × Nat)) (name : String)
    (h : ∀ p ∈ players, p.1 ≠ name) :
    ∀ {α : Type} (getGames : Nat → List Nat) (getData : List Nat → α),
      fetchStage players name getGames getData = FetchOutcome.userInputError := by
  intro α getGames getData
  unfold fetchStage resolveId
  have hnil : players.filter (fun p => p.1 == name) = [] := by
    rw [List.filter_eq_nil_iff]
    intro p hp
    simpa using h p hp
  rw [hnil]
  rfl

/-- Witness for C4 at a concrete roster and unknown name. -/
theorem C4_unknown_pitcher_witness :
    fetchStage samplePlayers unknownName (fun _ => []) (fun _ => (0 : Nat)) =
      FetchOutcome.userInputError :=
  C4_unknown_pitcher samplePlayers unknownName (by decide) _ _

/-- The claim C5 statement: the date filter keeps any record whose date
equals either endpoint of the inclusive interval. -/
theorem C5_date_inclusive (c : SelectionCriteria) (rs : List PitchRecord)
    (r : PitchRecord) (hse : c.start_date ≤ c.end_date) (hr : r ∈ rs)
    (hd : r.game_date = c.start_date ∨ r.game_date = c.end_date) :
    r ∈ filterDate c rs := by
  unfold filterDate
  refine List.mem_filter.mpr ⟨hr, ?_⟩
  cases hd with
  | inl h => simp [h, hse]
  | inr h => simp [h, hse]

/-- Witness for C5: a record dated exactly at the interval start is kept. -/
theorem C5_date_inclusive_witness : sampleRow ∈ filterDate sampleCrit [sampleRow] :=
  C5_date_inclusive sampleCrit [sampleRow] sampleRow
    (by rw [String.le_iff_toList_le]; decide) (by simp) (Or.inl rfl)

/-! Helper lemmas for handedness independence. -/

lemma forall₂_filter_same (p : PitchRecord → Bool)
    (hp : ∀ a b, SameExceptHand a b → p a = p b) :
    ∀ {l1 l2 : List PitchRecord}, List.Forall₂ SameExceptHand l1 l2 →
      List.Forall₂ SameExceptHand (l1.filter p) (l2.filter p) := by
  intro l1 l2 h
  induction h with
  | nil => exact List.Forall₂.nil
  | cons hab htail ih =>
    simp only [List.filter_cons]
    rw [hp _ _ hab]
    rename_i a b t1 t2
    cases hpb : p b with
    | true => exact List.Forall₂.cons hab ih
    | false => exact ih

/-- The claim C6 statement: with the "Both" handedness selection, the filter
chain makes the same per-row decisions on two row-sets that agree on all
fields except batter handedness (so the surviving positions coincide and the
survivors again agree up to handedness), and the handedness stage filters
nothing at all. -/
theorem C6_hand_independence (c : SelectionCriteria) (rs1 rs2 : List PitchRecord)
    (hboth : c.hand = "Both") (hrel : List.Forall₂ SameExceptHand rs1 rs2) :
    List.Forall₂ SameExceptHand (filterPipeline c rs1) (filterPipeline c rs2) ∧
    ∀ l : List PitchRecord, filterHand c l = l := by
  have hid : ∀ l : List PitchRecord, filterHand c l = l := by
    intro l
    unfold filterHand
    rw [hboth]
    simp
  refine ⟨?_, hid⟩
  unfold filterPipeline
  rw [hid, hid]
  apply forall₂_filter_same _ (fun a b hab => by
    unfold SameExceptHand at hab
    rw [hab.2.2.2.1])
  apply forall₂_filter_same _ (fun a b hab => by
    unfold SameExceptHand at hab
    rw [hab.2.2.1])
  apply forall₂_filter_same _ (fun a b hab => by
    unfold SameExceptHand at hab
    rw [hab.1])
  exact hrel

/-- Witness for C6 at two concrete one-row sets differing only in
handedness. -/
theorem C6_hand_independence_witness :
    List.Forall₂ SameExceptHand (filterPipeline sampleCrit [sampleRow])
      (filterPipeline sampleCrit [sampleRowR]) :=
  (C6_hand_independence sampleCrit [sampleRow] [sampleRowR] rfl
    (List.Forall₂.cons
      ⟨rfl, rfl, rfl, rfl, rfl, rfl, rfl, rfl, rfl, rfl, rfl, rfl, rfl, rfl⟩
      List.Forall₂.nil)).1

/-! Helper lemmas about column sums and means. -/

lemma fsum_all_val (l : List RFloat) (h : ∀ x ∈ l, x.isVal) :
    fsum l = RFloat.val (l.map RFloat.toReal).sum := by
  induction l with
  | nil => simp [fsum]
  | cons a tl ih =>
    cases a with
    | nan =>
      have hnan := h RFloat.nan (List.mem_cons_self _ _)
      simp [RFloat.isVal] at hnan
    | val r =>
      have ht : fsum tl = RFloat.val (tl.map RFloat.toReal).sum :=
        ih (fun x hx => h x (by simp [hx]))
      show RFloat.add (RFloat.val r) (fsum tl) = _
      rw [ht]
      simp [RFloat.add, RFloat.toReal]

lemma fsum_nan_mem (l : List RFloat) (h : RFloat.nan ∈ l) :
    fsum l = RFloat.nan := by
  induction l with
  | nil => simp at h
  | cons a tl ih =>
    rcases List.mem_cons.mp h with h1 | h2
    · show RFloat.add a (fsum tl) = RFloat.nan
      rw [← h1]
      rfl
    · show RFloat.add a (fsum tl) = RFloat.nan
      rw [ih h2]
      cases a <;> rfl

lemma fmean_all_val (l : List RFloat) (hne : l ≠ []) (h : ∀ x ∈ l, x.isVal) :
    fmean l = some (RFloat.val (amean (l.map RFloat.toReal))) := by
  cases l with
  | nil => exact absurd rfl hne
  | cons a tl =>
    show some (RFloat.div (fsum (a :: tl)) (RFloat.val ((a :: tl).length : ℝ))) = _
    rw [fsum_all_val _ h]
    have hlen : ((a :: tl).length : ℝ) ≠ 0 := by
      rw [Nat.cast_ne_zero]
      simp
    simp only [RFloat.div, if_neg hlen]
    unfold amean
    rw [List.length_map]

lemma fmean_nan_mem (l : List RFloat) (h : RFloat.nan ∈ l) :
    fmean l = some RFloat.nan := by
  cases l with
  | nil => simp at h
  | cons a tl =>
    show some (RFloat.div (fsum (a :: tl)) (RFloat.val ((a :: tl).length : ℝ))) = _
    rw [fsum_nan_mem _ h]
    rfl

/-- The claim C7 statement: over a non-empty derived row-set whose summary
columns are all defined, each of the five summary scalars is the arithmetic
mean of its column rounded to one decimal; and over a single row each scalar
is that row's own value rounded to one decimal. -/
theorem C7_summary_means (d : List DerivedRow) (hne : d ≠ [])
    (h1 : ∀ r ∈ d, (r.start_speed).isVal) (h2 : ∀ r ∈ d, (r.ivb).isVal)
    (h3 : ∀ r ∈ d, (r.hb).isVal) (h4 : ∀ r ∈ d, (r.extension).isVal)
    (h5 : ∀ r ∈ d, (r.vaa_deg).isVal) :
    ((summarize d).velo
        = some (RFloat.val (round1 (amean (d.map (fun r => (r.start_speed).toReal))))) ∧
      (summarize d).ivbM
        = some (RFloat.val (round1 (amean (d.map (fun r => (r.ivb).toReal))))) ∧
      (summarize d).hbM
        = some (RFloat.val (round1 (amean (d.map (fun r => (r.hb).toReal))))) ∧
      (summarize d).ext
        = some (RFloat.val (round1 (amean (d.map (fun r => (r.extension).toReal))))) ∧
      (summarize d).vaa
        = some (RFloat.val (round1 (amean (d.map (fun r => (r.vaa_deg).toReal)))))) ∧
    (∀ r : DerivedRow, (r.start_speed).isVal → (r.ivb).isVal → (r.hb).isVal →
      (r.extension).isVal → (r.vaa_deg).isVal →
      (summarize [r]).velo = some (RFloat.val (round1 ((r.start_speed).toReal))) ∧
      (summarize [r]).ivbM = some (RFloat.val (round1 ((r.ivb).toReal))) ∧
      (summarize [r]).hbM = some (RFloat.val (round1 ((r.hb).toReal))) ∧
      (summarize [r]).ext = some (RFloat.val (round1 ((r.extension).toReal))) ∧
      (summarize [r]).vaa = some (RFloat.val (round1 ((r.vaa_deg).toReal)))) := by
  have key : ∀ (e : List DerivedRow), e ≠ [] → ∀ (f : DerivedRow → RFloat),
      (∀ r ∈ e, (f r).isVal) →
      ((fmean (e.map f)).map RFloat.round1F)
        = some (RFloat.val (round1 (amean (e.map (fun r => (f r).toReal))))) := by
    intro e hene f hf
    have hcol : ∀ x ∈ e.map f, x.isVal := by
      intro x hx
      rcases List.mem_map.mp hx with ⟨r, hr, hfr⟩
      rw [← hfr]
      exact hf r hr
    have hcne : e.map f ≠ [] := by
      cases e with
      | nil => exact absurd rfl hene
      | cons a tl => simp
    rw [fmean_all_val _ hcne hcol, List.map_map]
    rfl
  have hsingle : ∀ r : DerivedRow, (r.start_speed).isVal → (r.ivb).isVal →
      (r.hb).isVal → (r.extension).isVal → (r.vaa_deg).isVal →
      (summarize [r]).velo = some (RFloat.val (round1 ((r.start_speed).toReal))) ∧
      (summarize [r]).ivbM = some (RFloat.val (round1 ((r.ivb).toReal))) ∧
      (summarize [r]).hbM = some (RFloat.val (round1 ((r.hb).toReal))) ∧
      (summarize [r]).ext = some (RFloat.val (round1 ((r.extension).toReal))) ∧
      (summarize [r]).vaa = some (RFloat.val (round1 ((r.vaa_deg).toReal))) := by
    intro r hr1 hr2 hr3 hr4 hr5
    have hs : ∀ (f : DerivedRow → RFloat), (f r).isVal →
        (fmean ([r].map f)).map RFloat.round1F
          = some (RFloat.val (round1 ((f r).toReal))) := by
      intro f hfr
      have := key [r] (by simp) f (by simpa using hfr)
      rw [this]
      simp [amean]
    exact ⟨hs _ hr1, hs _ hr2, hs _ hr3, hs _ hr4, hs _ hr5⟩
  refine ⟨⟨?_, ?_, ?_, ?_, ?_⟩, hsingle⟩
  · exact key d hne _ h1
  · exact key d hne _ h2
  · exact key d hne _ h3
  · exact key d hne _ h4
  · exact key d hne _ h5

/-- Witness for C7 at a concrete one-row derived set. -/
theorem C7_summary_means_witness :
    (summarize [sampleDerived]).vaa
      = some (RFloat.val (round1 ((sampleDerived.vaa_deg).toReal))) :=
  ((C7_summary_means [sampleDerived] (by simp)
    (by intro r hr; rw [List.mem_singleton.mp hr]; trivial)
    (by intro r hr; rw [List.mem_singleton.mp hr]; trivial)
    (by intro r hr; rw [List.mem_singleton.mp hr]; trivial)
    (by intro r hr; rw [List.mem_singleton.mp hr]; trivial)
    (by intro r hr; rw [List.mem_singleton.mp hr]; trivial)).2 sampleDerived
    trivial trivial trivial trivial trivial).2.2.2.2

/-! Helper lemmas evaluating the derived columns on concrete kinematics. -/

lemma vaaDegCol_nan (a b c d : ℝ) (hrad : a ^ 2 - 2 * b * (y0 - yf) < 0) :
    vaaDegCol (mkRow a b c d) = RFloat.nan := by
  have h1 : vyfCol (mkRow a b c d) = RFloat.nan := by
    unfold vyfCol mkRow
    simp only [RFloat.pow2, RFloat.mul, RFloat.sub, RFloat.fsqrt]
    rw [if_pos hrad]
    rfl
  unfold vaaDegCol vaaRadCol vzfCol tCol
  rw [h1]
  rfl

lemma vyfCol_val (a b c d : ℝ) (hrad : 0 ≤ a ^ 2 - 2 * b * (y0 - yf)) :
    vyfCol (mkRow a b c d) = RFloat.val (vyF a b) := by
  unfold vyfCol mkRow vyF
  simp only [RFloat.pow2, RFloat.mul, RFloat.sub, RFloat.fsqrt]
  rw [if_neg (not_lt.mpr hrad)]
  rfl

lemma tCol_val (a b c d : ℝ) (hay : b ≠ 0) (hrad : 0 ≤ a ^ 2 - 2 * b * (y0 - yf)) :
    tCol (mkRow a b c d) = RFloat.val (tF a b) := by
  unfold tCol tF
  rw [vyfCol_val a b c d hrad]
  show RFloat.div (RFloat.sub (RFloat.val (vyF a b)) (RFloat.val a)) (RFloat.val b) = _
  simp only [RFloat.sub, RFloat.div]
  rw [if_neg hay]

lemma vzfCol_val (a b c d : ℝ) (hay : b ≠ 0) (hrad : 0 ≤ a ^ 2 - 2 * b * (y0 - yf)) :
    vzfCol (mkRow a b c d) = RFloat.val (vzF a b c d) := by
  unfold vzfCol vzF
  rw [tCol_val a b c d hay hrad]
  show RFloat.add (RFloat.val c) (RFloat.mul (RFloat.val d) (RFloat.val (tF a b))) = _
  simp only [RFloat.mul, RFloat.add]

lemma vaaCols_val (a b c d : ℝ) (hay : b ≠ 0) (hrad : 0 < a ^ 2 - 2 * b * (y0 - yf)) :
    vaaRadCol (mkRow a b c d) = RFloat.val (Real.arctan (-vzF a b c d / vyF a b)) ∧
    vaaDegCol (mkRow a b c d) = RFloat.val (vaaDegF a b c d) := by
  have hs : vyF a b ≠ 0 := by
    unfold vyF
    have hpos : 0 < Real.sqrt (a ^ 2 - 2 * b * (y0 - yf)) := Real.sqrt_pos.mpr hrad
    exact neg_ne_zero.mpr (ne_of_gt hpos)
  have hrad' : 0 ≤ a ^ 2 - 2 * b * (y0 - yf) := le_of_lt hrad
  have hrc : vaaRadCol (mkRow a b c d)
      = RFloat.val (Real.arctan (-vzF a b c d / vyF a b)) := by
    unfold vaaRadCol
    rw [vzfCol_val a b c d hay hrad', vyfCol_val a b c d hrad']
    simp only [RFloat.neg, RFloat.div]
    rw [if_neg hs]
    rfl
  refine ⟨hrc, ?_⟩
  unfold vaaDegCol vaaDegF
  rw [hrc]
  rfl

/-- The claim C2 counterexample: on a two-row set whose first row has a
negative radicand and whose second row is fully defined, the aggregate VAA
mean is `nan` (polars does not skip NaN in `mean`), and it therefore differs
from the mean of the remaining defined values, which is a defined value. -/
theorem C2_counterexample :
    fmean ((derive [mkRow 0 1 0 0, mkRow (-130) 20 (-5) (-16)]).map (fun r => r.vaa_deg))
      = some RFloat.nan ∧
    fmean (((derive [mkRow 0 1 0 0, mkRow (-130) 20 (-5) (-16)]).map
        (fun r => r.vaa_deg)).filter (fun x => !x.isNaNB)) ≠ some RFloat.nan := by
  have hN : vaaDegCol (mkRow 0 1 0 0) = RFloat.nan :=
    vaaDegCol_nan 0 1 0 0 (by norm_num [y0, yf])
  have hD : vaaDegCol (mkRow (-130) 20 (-5) (-16))
      = RFloat.val (vaaDegF (-130) 20 (-5) (-16)) :=
    (vaaCols_val (-130) 20 (-5) (-16) (by norm_num) (by norm_num [y0, yf])).2
  have hmap : (derive [mkRow 0 1 0 0, mkRow (-130) 20 (-5) (-16)]).map (fun r => r.vaa_deg)
      = [RFloat.nan, RFloat.val (vaaDegF (-130) 20 (-5) (-16))] := by
    unfold derive deriveRow
    simp [hN, hD]
  constructor
  · rw [hmap]
    exact fmean_nan_mem _ (by simp)
  · rw [hmap]
    have hfil : ([RFloat.nan, RFloat.val (vaaDegF (-130) 20 (-5) (-16))].filter
        (fun x => !x.isNaNB)) = [RFloat.val (vaaDegF (-130) 20 (-5) (-16))] := rfl
    rw [hfil]
    have hne : ([RFloat.val (vaaDegF (-130) 20 (-5) (-16))] : List RFloat) ≠ [] := by simp
    have hval : ∀ x ∈ [RFloat.val (vaaDegF (-130) 20 (-5) (-16))], x.isVal := by
      intro x hx
      rw [List.mem_singleton.mp hx]
      trivial
    rw [fmean_all_val _ hne hval]
    intro hc
    injection hc with hc1
    exact RFloat.noConfusion hc1

/-- The claim C2 as amended: a row with a negative radicand gets a `nan`
derived vertical approach angle with no exception anywhere (all the modelled
operations are total), but such a row is NOT excluded from the aggregate: any
`nan` entry makes the column mean `nan` rather than the mean of the remaining
defined values. -/
theorem C2_nan_mean :
    (∀ a b c d : ℝ, a ^ 2 - 2 * b * (y0 - yf) < 0 →
      vaaDegCol (mkRow a b c d) = RFloat.nan) ∧
    (∀ l : List RFloat, RFloat.nan ∈ l → fmean l = some RFloat.nan) :=
  ⟨fun a b c d h => vaaDegCol_nan a b c d h, fun l h => fmean_nan_mem l h⟩

/-- Witness for the amended C2 at concrete inputs. -/
theorem C2_nan_mean_witness :
    vaaDegCol (mkRow 0 1 0 0) = RFloat.nan ∧
    fmean [RFloat.nan, RFloat.val 3] = some RFloat.nan :=
  ⟨C2_nan_mean.1 0 1 0 0 (by norm_num [y0, yf]),
   C2_nan_mean.2 [RFloat.nan, RFloat.val 3] (by simp)⟩

/-! Polynomial bounds on the arctangent, used for the numeric check of the
vertical-approach-angle formula. -/

lemma arctan_ge_poly7 (x : ℝ) (hx : 0 ≤ x) :
    x - x ^ 3 / 3 + x ^ 5 / 5 - x ^ 7 / 7 ≤ Real.arctan x := by
  have key : ∀ u : ℝ, HasDerivAt
      (fun v : ℝ => Real.arctan v - (v - v ^ 3 / 3 + v ^ 5 / 5 - v ^ 7 / 7))
      (1 / (1 + u ^ 2) - (1 - u ^ 2 + u ^ 4 - u ^ 6)) u := by
    intro u
    have hpoly : HasDerivAt (fun v : ℝ => v - v ^ 3 / 3 + v ^ 5 / 5 - v ^ 7 / 7)
        (1 - u ^ 2 + u ^ 4 - u ^ 6) u := by
      have h1 : HasDerivAt (fun v : ℝ => v) 1 u := hasDerivAt_id u
      have h3 := (hasDerivAt_pow 3 u).div_const 3
      have h5 := (hasDerivAt_pow 5 u).div_const 5
      have h7 := (hasDerivAt_pow 7 u).div_const 7
      have hc := ((h1.sub h3).add h5).sub h7
      convert hc using 1
      push_cast
      ring
    exact (Real.hasDerivAt_arctan u).sub hpoly
  have hmono : Monotone
      (fun v : ℝ => Real.arctan v - (v - v ^ 3 / 3 + v ^ 5 / 5 - v ^ 7 / 7)) := by
    apply monotone_of_deriv_nonneg
    · intro u
      exact (key u).differentiableAt
    · intro u
      rw [(key u).deriv]
      have hp : (0 : ℝ) < 1 + u ^ 2 := by positivity
      rw [sub_nonneg, le_div_iff₀ hp]
      nlinarith [sq_nonneg (u ^ 4), sq_nonneg u]
  have h0 := hmono hx
  simp only [Real.arctan_zero] at h0
  norm_num at h0
  linarith

lemma arctan_le_poly9 (x : ℝ) (hx : 0 ≤ x) :
    Real.arctan x ≤ x - x ^ 3 / 3 + x ^ 5 / 5 - x ^ 7 / 7 + x ^ 9 / 9 := by
  have key : ∀ u : ℝ, HasDerivAt
      (fun v : ℝ => (v - v ^ 3 / 3 + v ^ 5 / 5 - v ^ 7 / 7 + v ^ 9 / 9) - Real.arctan v)
      ((1 - u ^ 2 + u ^ 4 - u ^ 6 + u ^ 8) - 1 / (1 + u ^ 2)) u := by
    intro u
    have hpoly : HasDerivAt
        (fun v : ℝ => v - v ^ 3 / 3 + v ^ 5 / 5 - v ^ 7 / 7 + v ^ 9 / 9)
        (1 - u ^ 2 + u ^ 4 - u ^ 6 + u ^ 8) u := by
      have h1 : HasDerivAt (fun v : ℝ => v) 1 u := hasDerivAt_id u
      have h3 := (hasDerivAt_pow 3 u).div_const 3
      have h5 := (hasDerivAt_pow 5 u).div_const 5
      have h7 := (hasDerivAt_pow 7 u).div_const 7
      have h9 := (hasDerivAt_pow 9 u).div_const 9
      have hc := (((h1.sub h3).add h5).sub h7).add h9
      convert hc using 1
      push_cast
      ring
    exact hpoly.sub (Real.hasDerivAt_arctan u)
  have hmono : Monotone
      (fun v : ℝ => (v - v ^ 3 / 3 + v ^ 5 / 5 - v ^ 7 / 7 + v ^ 9 / 9) - Real.arctan v) := by
    apply monotone_of_deriv_nonneg
    · intro u
      exact (key u).differentiableAt
    · intro u
      rw [(key u).deriv]
      have hp : (0 : ℝ) < 1 + u ^ 2 := by positivity
      rw [sub_nonneg, div_le_iff₀ hp]
      nlinarith [sq_nonneg (u ^ 5), sq_nonneg u]
  have h0 := hmono hx
  simp only [Real.arctan_zero] at h0
  norm_num at h0
  linarith

/-- The claim C1 statement: for a row with nonzero `ay` and nonnegative
radicand, the derived columns follow the four-step formula with `y0 = 50`
and `yf = 17/12` exactly (the `vaa` step additionally needs the radicand
nonzero, since at zero the formula itself divides by `vy_f = 0`); and at the
reference input `vy0 = -130`, `ay = 20`, `vz0 = -5`, `az = -16` the four
derived quantities match the hand-computed reference values within 1e-6. -/
theorem C1_vaa_formula (a b c d : ℝ) (hay : b ≠ 0)
    (hrad : 0 ≤ a ^ 2 - 2 * b * (y0 - yf)) :
    ((deriveRow (mkRow a b c d)).vy_f = RFloat.val (vyF a b) ∧
     (deriveRow (mkRow a b c d)).t = RFloat.val (tF a b) ∧
     (deriveRow (mkRow a b c d)).vz_f = RFloat.val (vzF a b c d) ∧
     (a ^ 2 - 2 * b * (y0 - yf) ≠ 0 →
       (deriveRow (mkRow a b c d)).vaa_deg = RFloat.val (vaaDegF a b c d))) ∧
    (a = -130 → b = 20 → c = -5 → d = -16 →
      |vyF a b - (-122.2974516)| < 1e-6 ∧
      |tF a b - 0.3851274202| < 1e-6 ∧
      |vzF a b c d - (-11.1620387239)| < 1e-6 ∧
      |vaaDegF a b c d - (-5.2149142267)| < 1e-6) := by
  constructor
  · refine ⟨vyfCol_val a b c d hrad, tCol_val a b c d hay hrad,
      vzfCol_val a b c d hay hrad, ?_⟩
    intro hne
    exact (vaaCols_val a b c d hay (lt_of_le_of_ne hrad (Ne.symm hne))).2
  · intro ha hb2 hc2 hd2
    subst ha
    subst hb2
    subst hc2
    subst hd2
    have hrad_eq : ((-130 : ℝ)) ^ 2 - 2 * 20 * (y0 - yf) = 44870 / 3 := by
      norm_num [y0, yf]
    set s : ℝ := Real.sqrt ((44870 : ℝ) / 3) with hs_def
    have hsqrt_eq : Real.sqrt (((-130 : ℝ)) ^ 2 - 2 * 20 * (y0 - yf)) = s := by
      rw [hrad_eq]
    have hs_lo : (122.29745159514 : ℝ) < s := by
      rw [hs_def]
      exact (Real.lt_sqrt (by norm_num)).mpr (by norm_num)
    have hs_hi : s < 122.29745159515 := by
      rw [hs_def]
      exact (Real.sqrt_lt' (by norm_num)).mpr (by norm_num)
    have hs_pos : (0 : ℝ) < s := lt_trans (by norm_num) hs_lo
    have hs_ne : s ≠ 0 := ne_of_gt hs_pos
    have hvyF : vyF (-130) 20 = -s := by
      unfold vyF
      rw [hsqrt_eq]
    have htF : tF (-130) 20 = 6.5 - s / 20 := by
      unfold tF
      rw [hvyF]
      ring
    have hvzF : vzF (-130) 20 (-5) (-16) = -109 + (4 / 5) * s := by
      unfold vzF
      rw [htF]
      ring
    refine ⟨?_, ?_, ?_, ?_⟩
    · rw [hvyF, abs_lt]
      constructor <;> linarith
    · rw [htF, abs_lt]
      constructor <;> linarith
    · rw [hvzF, abs_lt]
      constructor <;> linarith
    · have hx_eq : -vzF (-130) 20 (-5) (-16) / vyF (-130) 20 = ((4 / 5) * s - 109) / s := by
        rw [hvzF, hvyF]
        field_simp
        ring
      have hx_lo : -(0.09126959376 : ℝ) < ((4 / 5) * s - 109) / s := by
        rw [lt_div_iff₀ hs_pos]
        linarith
      have hx_hi : ((4 / 5) * s - 109) / s < -(0.09126959375 : ℝ) := by
        rw [div_lt_iff₀ hs_pos]
        linarith
      have har_lo : -(0.09126959376 - 0.09126959376 ^ 3 / 3 + 0.09126959376 ^ 5 / 5
            - 0.09126959376 ^ 7 / 7 + 0.09126959376 ^ 9 / 9 : ℝ)
          < Real.arctan (((4 / 5) * s - 109) / s) := by
        have h1 : Real.arctan (-(0.09126959376 : ℝ))
            < Real.arctan (((4 / 5) * s - 109) / s) := Real.arctan_strictMono hx_lo
        rw [Real.arctan_neg] at h1
        have h2 := arctan_le_poly9 (0.09126959376 : ℝ) (by norm_num)
        linarith
      have har_hi : Real.arctan (((4 / 5) * s - 109) / s)
          < -(0.09126959375 - 0.09126959375 ^ 3 / 3 + 0.09126959375 ^ 5 / 5
            - 0.09126959375 ^ 7 / 7 : ℝ) := by
        have h1 : Real.arctan (((4 / 5) * s - 109) / s)
            < Real.arctan (-(0.09126959375 : ℝ)) := Real.arctan_strictMono hx_hi
        rw [Real.arctan_neg] at h1
        have h2 := arctan_ge_poly7 (0.09126959375 : ℝ) (by norm_num)
        linarith
      have hpi1 : (3.14159265358979323846 : ℝ) < Real.pi := Real.pi_gt_d20
      have hpi2 : Real.pi < 3.14159265358979323847 := Real.pi_lt_d20
      have hc_pos : (0 : ℝ) < 180 / Real.pi := by positivity
      have hc_lo : (180 : ℝ) / 3.14159265358979323847 < 180 / Real.pi :=
        (div_lt_div_iff_of_pos_left (by norm_num) (by norm_num) Real.pi_pos).mpr hpi2
      have hc_hi : (180 : ℝ) / Real.pi < 180 / 3.14159265358979323846 :=
        (div_lt_div_iff_of_pos_left (by norm_num) Real.pi_pos (by norm_num)).mpr hpi1
      have hup1 : Real.arctan (((4 / 5) * s - 109) / s) * (180 / Real.pi)
          < (-(0.09126959375 - 0.09126959375 ^ 3 / 3 + 0.09126959375 ^ 5 / 5
            - 0.09126959375 ^ 7 / 7 : ℝ)) * (180 / Real.pi) :=
        mul_lt_mul_of_pos_right har_hi hc_pos
      have hup2 : (-(0.09126959375 - 0.09126959375 ^ 3 / 3 + 0.09126959375 ^ 5 / 5
            - 0.09126959375 ^ 7 / 7 : ℝ)) * (180 / Real.pi)
          < (-(0.09126959375 - 0.09126959375 ^ 3 / 3 + 0.09126959375 ^ 5 / 5
            - 0.09126959375 ^ 7 / 7 : ℝ)) * ((180 : ℝ) / 3.14159265358979323847) := by
        apply mul_lt_mul_of_neg_left hc_lo
        norm_num
      have hlow1 : (-(0.09126959376 - 0.09126959376 ^ 3 / 3 + 0.09126959376 ^ 5 / 5
            - 0.09126959376 ^ 7 / 7 + 0.09126959376 ^ 9 / 9 : ℝ)) * (180 / Real.pi)
          < Real.arctan (((4 / 5) * s - 109) / s) * (180 / Real.pi) :=
        mul_lt_mul_of_pos_right har_lo hc_pos
      have hlow2 : (-(0.09126959376 - 0.09126959376 ^ 3 / 3 + 0.09126959376 ^ 5 / 5
            - 0.09126959376 ^ 7 / 7 + 0.09126959376 ^ 9 / 9 : ℝ))
            * ((180 : ℝ) / 3.14159265358979323846)
          < (-(0.09126959376 - 0.09126959376 ^ 3 / 3 + 0.09126959376 ^ 5 / 5
            - 0.09126959376 ^ 7 / 7 + 0.09126959376 ^ 9 / 9 : ℝ)) * (180 / Real.pi) := by
        apply mul_lt_mul_of_neg_left hc_hi
        norm_num
      have hnum1 : (-5.2149142267 : ℝ) - 1e-6
          < (-(0.09126959376 - 0.09126959376 ^ 3 / 3 + 0.09126959376 ^ 5 / 5
            - 0.09126959376 ^ 7 / 7 + 0.09126959376 ^ 9 / 9 : ℝ))
            * ((180 : ℝ) / 3.14159265358979323846) := by
        norm_num
      have hnum2 : (-(0.09126959375 - 0.09126959375 ^ 3 / 3 + 0.09126959375 ^ 5 / 5
            - 0.09126959375 ^ 7 / 7 : ℝ)) * ((180 : ℝ) / 3.14159265358979323847)
          < (-5.2149142267 : ℝ) + 1e-6 := by
        norm_num
      unfold vaaDegF
      rw [hx_eq, abs_lt]
      constructor
      · linarith
      · linarith

/-- Witness for C1 at the reference input, with every hypothesis discharged
concretely. -/
theorem C1_vaa_formula_witness :
    (deriveRow (mkRow (-130) 20 (-5) (-16))).vy_f = RFloat.val (vyF (-130) 20) ∧
    |vaaDegF (-130) 20 (-5) (-16) - (-5.2149142267)| < 1e-6 :=
  ⟨(C1_vaa_formula (-130) 20 (-5) (-16) (by norm_num) (by norm_num [y0, yf])).1.1,
   ((C1_vaa_formula (-130) 20 (-5) (-16) (by norm_num) (by norm_num [y0, yf])).2
     rfl rfl rfl rfl).2.2.2⟩
